import Mathlib

/-!
Formal model of the make-it-public-tgbot conversational token workflow:
the `conv` questionnaire/conversation state machine, the `core` service
orchestrator (token creation, regeneration and revocation), and the `repo`
sorted-set member encoding.  Each definition is a direct translation of the
corresponding Go function; collaborator calls (Redis repository, token
provider) are modelled by a `World` record of oracle outcomes plus an event
trace, threaded explicitly through every service function.
-/

namespace MIT

/-- Go byte slicing `s[:n]` modelled as a take of `n` characters (key IDs and
button labels are ASCII, where bytes and characters coincide). -/
def strTake (s : String) (n : Nat) : String := ⟨s.data.take n⟩

/-- Go byte slicing `s[n:]`. -/
def strDrop (s : String) (n : Nat) : String := ⟨s.data.drop n⟩

/-- Go `strings.HasPrefix s p`. -/
def strHasPrefix (s p : String) : Bool := p.data.isPrefixOf s.data

/-- A Go error value: either a plain message (`errors.New` / `fmt.Errorf`
without `%w`) or a wrap of an inner error (`fmt.Errorf` with `%w`). -/
inductive Err where
  | msg (s : String)
  | wrap (ctx : String) (e : Err)
deriving Repr, DecidableEq

/-- Go `errors.Is`: the target is the error itself or sits in its unwrap
chain. -/
def Err.is : Err → Err → Bool
  | .msg s, t => Err.msg s == t
  | .wrap c e, t => Err.wrap c e == t || e.is t

/-- conv.ErrNoMoreQuestions. -/
def ErrNoMoreQuestions : Err := .msg "no more questions"

/-- The `errors.New("invalid answer")` failure of `ProcessAnswer`. -/
def ErrInvalidAnswer : Err := .msg "invalid answer"

/-- conv.ErrQuestionnaireIncomplete. -/
def ErrQuestionnaireIncomplete : Err := .msg "questionnaire is incomplete"

/-- conv.ErrIsNotComplete. -/
def ErrIsNotComplete : Err := .msg "conversation is not complete"

/-- core.ErrTokenNotFound. -/
def ErrTokenNotFound : Err := .msg "token not found"

/-- core.ErrInvalidExpirationPeriod. -/
def ErrInvalidExpirationPeriod : Err := .msg "invalid expiration period selected"

/-- core.ErrKeyNotFound. -/
def ErrKeyNotFound : Err := .msg "selected key not found"

/-- conv.Question.  `Text` and `Answers` are as declared in conv.go; the
opaque `Field` member is the hidden continuation context that the
token-type-aware core package stores on the question (the spec's §3
"optional opaque `field` string carrying hidden continuation context");
its declaration site is the conv version the core code under src/ builds
`conv.Question{..., Field: ...}` against. -/
structure Question where
  text : String
  answers : List String
  field : String
deriving Repr, DecidableEq

/-- conv.QuestionAnswer. -/
structure QuestionAnswer where
  answer : String
  field : String
  question : Question
deriving Repr, DecidableEq

/-- conv.Questions: ordered question/answer pairs plus the cursor. -/
structure Questions where
  qaPairs : List QuestionAnswer
  position : Nat
deriving Repr, DecidableEq

/-- conv.NewQuestions: every pair starts with an empty answer, cursor 0.
The pair keeps the question's field (the spec's §3: a QuestionAnswer is "a
Question plus the answer actually given (empty until answered) plus the
field"). -/
def NewQuestions (questions : List Question) : Questions :=
  { qaPairs := questions.map (fun q => { question := q, answer := "", field := q.field }),
    position := 0 }

/-- conv.Questions.GetQuestion. -/
def Questions.GetQuestion (f : Questions) : Except Err Question :=
  if h : f.position < f.qaPairs.length then .ok (f.qaPairs.get ⟨f.position, h⟩).question
  else .error ErrNoMoreQuestions

/-- conv.Questions.ProcessAnswer, returning the `done` flag together with
the updated receiver (Go mutates the receiver in place; error outcomes
return it unchanged, as the Go method leaves it). -/
def Questions.ProcessAnswer (f : Questions) (answer : String) : Except Err Bool × Questions :=
  if h : f.position < f.qaPairs.length then
    let qa := f.qaPairs.get ⟨f.position, h⟩
    if qa.question.answers.contains answer then
      let f' : Questions :=
        { qaPairs := f.qaPairs.set f.position { qa with answer := answer },
          position := f.position + 1 }
      (.ok (decide (f'.qaPairs.length ≤ f'.position)), f')
    else (.error ErrInvalidAnswer, f)
  else (.error ErrNoMoreQuestions, f)

/-- conv.Questions.GetResults. -/
def Questions.GetResults (f : Questions) : Except Err (List QuestionAnswer) :=
  if f.position < f.qaPairs.length then .error ErrQuestionnaireIncomplete
  else .ok f.qaPairs

/-- conv.State is a string tag. -/
abbrev State := String

/-- conv.StateIdle. -/
def StateIdle : State := "idle"

/-- conv.StateComplete. -/
def StateComplete : State := "complete"

/-- conv.Conversation. -/
structure Conversation where
  id : String
  state : State
  questions : Questions
deriving Repr, DecidableEq

/-- conv.New: a fresh conversation in the Idle state (the zero-value
questionnaire is the empty pair list with cursor 0). -/
def Conversation.New (id : String) : Conversation :=
  { id := id, state := StateIdle, questions := { qaPairs := [], position := 0 } }

/-- conv.Conversation.Start.  The Go code panics when the new state is Idle
or Complete; the panic is modelled as a dedicated error value (no caller in
the modelled flows reaches it). -/
def Conversation.Start (c : Conversation) (newState : State) (questions : Questions) :
    Except Err Unit × Conversation :=
  if c.state ≠ StateIdle then (.error (.msg "conversation is not in chat state"), c)
  else if newState = StateIdle ∨ newState = StateComplete then
    (.error (.msg "panic: invalid state for questions"), c)
  else (.ok (), { c with state := newState, questions := questions })

/-- conv.Conversation.Current. -/
def Conversation.Current (c : Conversation) : Except Err Question :=
  if c.state = StateIdle ∨ c.state = StateComplete then
    .error (.msg ("conversation is not in questions state, current state: " ++ c.state))
  else c.questions.GetQuestion

/-- conv.Conversation.Submit: legal only in an in-flight state; delegates to
`ProcessAnswer`; on success returns the state the leg was running under and,
when done, transitions the conversation to Complete. -/
def Conversation.Submit (c : Conversation) (answer : String) : Except Err State × Conversation :=
  if c.state = StateIdle ∨ c.state = StateComplete then
    (.error (.msg ("conversation is not in questions state, current state: " ++ c.state)), c)
  else
    match c.questions.ProcessAnswer answer with
    | (.error e, qs) => (.error e, { c with questions := qs })
    | (.ok done, qs) =>
      (.ok c.state, { c with questions := qs, state := if done then StateComplete else c.state })

/-- conv.Conversation.Results: legal only from Complete; returns the
finished pairs and resets the state to Idle. -/
def Conversation.Results (c : Conversation) : Except Err (List QuestionAnswer) × Conversation :=
  if c.state ≠ StateComplete then (.error ErrIsNotComplete, c)
  else
    match c.questions.GetResults with
    | .error e => (.error (.wrap "failed to get question results" e), c)
    | .ok r => (.ok r, { c with state := StateIdle })

/-- core.TokenType ("web-tunnel" and "TCP-tunnel" tokens). -/
inductive TokenType where
  | web
  | tcp
deriving Repr, DecidableEq

/-- The string value of a core.TokenType constant ("web" / "tcp"). -/
def TokenType.str : TokenType → String
  | .web => "web"
  | .tcp => "tcp"

/-- core.APIToken.  `ExpiresIn` (a Go time.Duration) is modelled as an
integer number of seconds. -/
structure APIToken where
  keyID : String
  token : String
  expiresIn : Int
deriving Repr, DecidableEq

/-- core.KeyInfo.  The time.Time expiry is observable in the modelled flows
only through its "2006-01-02" date rendering on selection buttons, so it is
carried as that rendered string. -/
structure KeyInfo where
  keyID : String
  expiresAtDate : String
  type : TokenType
deriving Repr, DecidableEq

/-- core.Response: a message plus the possible answers of the follow-up
question (empty when the turn is over). -/
structure Response where
  message : String
  answers : List String
deriving Repr, DecidableEq

/-- core.StateTokenRegenerate. -/
def StateTokenRegenerate : State := "tokenRegenerate"

/-- core.StateTokenExists. -/
def StateTokenExists : State := "tokenExists"

/-- core.StateNewToken. -/
def StateNewToken : State := "newToken"

/-- core.StateSelectTokenToRegenerate. -/
def StateSelectTokenToRegenerate : State := "selectTokenToRegenerate"

/-- core.StateSelectTokenToRevoke. -/
def StateSelectTokenToRevoke : State := "selectTokenToRevoke"

/-- Modelled from the spec: the constant core.StateSelectTokenType is
referenced by svc.go's dispatch but its declaration is not under src/; its
tag value is chosen in the naming pattern of its sibling states.  Every
claim only needs it to be distinct from the other five tags. -/
def StateSelectTokenType : State := "selectTokenType"

/-- One collaborator call observed during a service operation. -/
inductive Event where
  | getConv (userID : String)
  | saveConv (c : Conversation)
  | getKeys (userID : String)
  | getKeysExp (userID : String)
  | provRevoke (keyID : String)
  | provGenerate (keyID : String) (ttl : Int)
  | repoRevoke (userID : String) (keyID : String)
  | repoAddKey (userID : String) (keyID : String) (expiresIn : Int)
deriving Repr, DecidableEq

/-- The service's collaborators for one user: the persisted conversation
store, the repository's key listings, each call's oracle outcome (an error
message, or `none` for success), the wall clock, and the trace of calls
made so far. -/
structure World where
  store : Option Conversation
  apiKeys : List String
  apiKeysExp : List KeyInfo
  getConvErr : Option String
  saveConvErr : Option String
  getKeysErr : Option String
  getKeysExpErr : Option String
  provRevokeErr : String → Option String
  provGen : String → Int → Except String APIToken
  repoRevokeErr : String → Option String
  addKeyErr : String → Option String
  now : Int
  trace : List Event

/-- Record one collaborator call in the trace. -/
def World.log (w : World) (e : Event) : World := { w with trace := w.trace ++ [e] }

/-- repo GetConversation: the stored conversation, or a fresh Idle one when
none is stored (repo/user.go returns `conv.New` on a Redis miss). -/
def repoGetConversation (w : World) (userID : String) : Except String Conversation × World :=
  let w := w.log (.getConv userID)
  match w.getConvErr with
  | some m => (.error m, w)
  | none => (.ok (w.store.getD (Conversation.New userID)), w)

/-- repo SaveConversation: overwrites the persisted conversation. -/
def repoSaveConversation (w : World) (c : Conversation) : Except String Unit × World :=
  let w := w.log (.saveConv c)
  match w.saveConvErr with
  | some m => (.error m, w)
  | none => (.ok (), { w with store := some c })

/-- repo GetAPIKeys: the user's bare key IDs. -/
def repoGetAPIKeys (w : World) (userID : String) : Except String (List String) × World :=
  let w := w.log (.getKeys userID)
  match w.getKeysErr with
  | some m => (.error m, w)
  | none => (.ok w.apiKeys, w)

/-- repo GetAPIKeysWithExpiration: the user's keys with expiry metadata. -/
def repoGetAPIKeysWithExpiration (w : World) (userID : String) :
    Except String (List KeyInfo) × World :=
  let w := w.log (.getKeysExp userID)
  match w.getKeysExpErr with
  | some m => (.error m, w)
  | none => (.ok w.apiKeysExp, w)

/-- provider RevokeToken. -/
def provRevokeToken (w : World) (keyID : String) : Except String Unit × World :=
  let w := w.log (.provRevoke keyID)
  match w.provRevokeErr keyID with
  | some m => (.error m, w)
  | none => (.ok (), w)

/-- provider GenerateToken. -/
def provGenerateToken (w : World) (keyID : String) (ttl : Int) :
    Except String APIToken × World :=
  let w := w.log (.provGenerate keyID ttl)
  (w.provGen keyID ttl, w)

/-- repo RevokeToken. -/
def repoRevokeToken (w : World) (userID keyID : String) : Except String Unit × World :=
  let w := w.log (.repoRevoke userID keyID)
  match w.repoRevokeErr keyID with
  | some m => (.error m, w)
  | none => (.ok (), w)

/-- repo AddAPIKey. -/
def repoAddAPIKey (w : World) (userID keyID : String) (expiresIn : Int) :
    Except String Unit × World :=
  let w := w.log (.repoAddKey userID keyID expiresIn)
  match w.addKeyErr keyID with
  | some m => (.error m, w)
  | none => (.ok (), w)

/-- core's secondsInDay constant. -/
def secondsInDay : Int := 24 * 60 * 60

/-- core's keyIDDisplayLen constant: characters of a key ID shown on
buttons. -/
def keyIDDisplayLen : Nat := 8

/-- The formatted success message of create_token.go's
tokenCreatedMessage. -/
def tokenCreatedMessage (token expiresAt : String) : String :=
  "🔑 Your New API Token\n\n" ++ token ++ "\n\n⏱ Valid until: " ++ expiresAt ++
    "\n\nKeep this token secure and don't share it with others."

/-- The corrective reply for an invalid expiration period. -/
def invalidExpirationResponse : Response :=
  { message := "Invalid expiration period selected. Please select one of the available options.",
    answers := [] }

/-- Rendering of the wall-clock instant `time.Now().Add(expiresIn)` in the
success message.  Calendar formatting is irrelevant to every modelled
property, so the instant is rendered as its integer timestamp. -/
def formatDateTime (t : Int) : String := toString t

/-- core parseExpirationAnswer: the textual expiration choice as seconds. -/
def parseExpirationAnswer (answers : List QuestionAnswer) : Except Err Int :=
  match answers with
  | [] => .error (.msg "expected at least one answer for expiration question, got 0")
  | a :: _ =>
    if a.answer = "1 day" then .ok secondsInDay
    else if a.answer = "7 days" then .ok (7 * secondsInDay)
    else if a.answer = "30 days" then .ok (30 * secondsInDay)
    else if a.answer = "90 days" then .ok (90 * secondsInDay)
    else .error ErrInvalidExpirationPeriod

/-- The expiration question built by askForTokenExpirationWithKeyID, with
the target key ID embedded in the field. -/
def expirationQuestion (keyID : String) : Question :=
  { text := "What is the expiration period for your new API token?",
    answers := ["1 day", "7 days", "30 days", "90 days"],
    field := keyID }

/-- core askForTokenExpirationWithKeyID: start an ask-expiration leg under
`state`, embedding `keyID` in the question's field.  (Go reads the current
question with `q, _ := c.Current()`, ignoring the impossible error; the
model mirrors that with a default question.) -/
def askForTokenExpirationWithKeyID (w : World) (userID : String) (state : State)
    (keyID : String) : Except Err Response × World :=
  match repoGetConversation w userID with
  | (.error m, w) => (.error (.wrap "failed to get conversation" (.msg m)), w)
  | (.ok c, w) =>
    match c.Start state (NewQuestions [expirationQuestion keyID]) with
    | (.error e, _) => (.error (.wrap "failed to start questions" e), w)
    | (.ok _, c) =>
      let q := (c.Current).toOption.getD { text := "", answers := [], field := "" }
      match repoSaveConversation w c with
      | (.error m, w) => (.error (.wrap "failed to save conversation" (.msg m)), w)
      | (.ok _, w) => (.ok { message := q.text, answers := q.answers }, w)

/-- core askForTokenExpiration: the ask-expiration leg with no associated
key ID. -/
def askForTokenExpiration (w : World) (userID : String) (state : State) :
    Except Err Response × World :=
  askForTokenExpirationWithKeyID w userID state ""

/-- core handleNewTokenResult: create a brand-new token with the chosen
expiration period. -/
def handleNewTokenResult (w : World) (userID : String) (answers : List QuestionAnswer) :
    Except Err Response × World :=
  match parseExpirationAnswer answers with
  | .error e =>
    if e.is ErrInvalidExpirationPeriod then (.ok invalidExpirationResponse, w)
    else (.error (.wrap "failed to parse expiration answer" e), w)
  | .ok expiresIn =>
    match provGenerateToken w "" expiresIn with
    | (.error m, w) => (.error (.wrap "failed to generate token" (.msg m)), w)
    | (.ok token, w) =>
      match repoAddAPIKey w userID token.keyID token.expiresIn with
      | (.error m, w) => (.error (.wrap "failed to add API key" (.msg m)), w)
      | (.ok _, w) =>
        (.ok { message := tokenCreatedMessage token.token
                 (formatDateTime (w.now + token.expiresIn)),
               answers := [] }, w)

/-- core handleTokenRegenerateResult: revoke the key stored in the answer's
field, then generate and store a replacement. -/
def handleTokenRegenerateResult (w : World) (userID : String)
    (answers : List QuestionAnswer) : Except Err Response × World :=
  match parseExpirationAnswer answers with
  | .error e =>
    if e.is ErrInvalidExpirationPeriod then (.ok invalidExpirationResponse, w)
    else (.error (.wrap "failed to parse expiration answer" e), w)
  | .ok expiresIn =>
    match answers with
    | [] => (.error (.msg "expected at least one answer, got none"), w)
    | a :: _ =>
      let keyID := a.field
      if keyID = "" then (.error (.msg "missing key ID in regenerate answer field"), w)
      else
        match provRevokeToken w keyID with
        | (.error m, w) => (.error (.wrap "failed to revoke existing token" (.msg m)), w)
        | (.ok _, w) =>
          match repoRevokeToken w userID keyID with
          | (.error m, w) =>
            (.error (.wrap "failed to remove API key from repository" (.msg m)), w)
          | (.ok _, w) =>
            match provGenerateToken w keyID expiresIn with
            | (.error m, w) => (.error (.wrap "failed to generate token" (.msg m)), w)
            | (.ok token, w) =>
              match repoAddAPIKey w userID token.keyID token.expiresIn with
              | (.error m, w) => (.error (.wrap "failed to add API key" (.msg m)), w)
              | (.ok _, w) =>
                (.ok { message := tokenCreatedMessage token.token
                         (formatDateTime (w.now + token.expiresIn)),
                       answers := [] }, w)

/-- core buildTokenSelectionQuestion: one button per key, each showing the
first keyIDDisplayLen characters of the key ID plus the expiry date. -/
def buildTokenSelectionQuestion (keys : List KeyInfo) (questionText : String) : Question :=
  { text := questionText,
    answers := keys.map (fun k =>
      (if keyIDDisplayLen < k.keyID.length then strTake k.keyID keyIDDisplayLen else k.keyID) ++
        " (exp: " ++ k.expiresAtDate ++ ")"),
    field := "" }

/-- core resolveKeyIDFromPrefix: the first key whose displayed prefix
matches the first keyIDDisplayLen characters of the selected button
text. -/
def resolveKeyIDFromPrefix : List String → String → Except Err String
  | [], _ => .error ErrKeyNotFound
  | k :: keys, buttonText =>
    if keyIDDisplayLen ≤ buttonText.length ∧
        strTake buttonText keyIDDisplayLen =
          (if keyIDDisplayLen < k.length then strTake k keyIDDisplayLen else k) then
      .ok k
    else resolveKeyIDFromPrefix keys buttonText

/-- core askToSelectTokenForRegeneration: start the select-key-to-regenerate
leg, one button per existing key. -/
def askToSelectTokenForRegeneration (w : World) (userID : String) :
    Except Err Response × World :=
  match repoGetAPIKeysWithExpiration w userID with
  | (.error m, w) => (.error (.wrap "failed to get API keys" (.msg m)), w)
  | (.ok keys, w) =>
    let q := buildTokenSelectionQuestion keys "Which token do you want to regenerate?"
    match repoGetConversation w userID with
    | (.error m, w) => (.error (.wrap "failed to get conversation" (.msg m)), w)
    | (.ok c, w) =>
      match c.Start StateSelectTokenToRegenerate (NewQuestions [q]) with
      | (.error e, _) => (.error (.wrap "failed to start questions" e), w)
      | (.ok _, c) =>
        let current := (c.Current).toOption.getD { text := "", answers := [], field := "" }
        match repoSaveConversation w c with
        | (.error m, w) => (.error (.wrap "failed to save conversation" (.msg m)), w)
        | (.ok _, w) => (.ok { message := current.text, answers := current.answers }, w)

/-- core handleTokenExistsResult: the answer to "do you want to
regenerate?".  "No" ends the dialog; anything else moves on to selecting
the token to regenerate. -/
def handleTokenExistsResult (w : World) (userID : String) (answers : List QuestionAnswer) :
    Except Err Response × World :=
  match answers with
  | [a] =>
    if a.answer = "No" then
      (.ok { message := "No changes made. You can continue using your existing API tokens.",
             answers := [] }, w)
    else askToSelectTokenForRegeneration w userID
  | _ =>
    (.error (.msg ("expected exactly one answer for tokenExists question, got " ++
      toString answers.length)), w)

/-- core handleSelectTokenToRegenerateResult: resolve the chosen button back
to a full key ID and ask for the new expiration period. -/
def handleSelectTokenToRegenerateResult (w : World) (userID : String)
    (answers : List QuestionAnswer) : Except Err Response × World :=
  match answers with
  | [a] =>
    match repoGetAPIKeys w userID with
    | (.error m, w) => (.error (.wrap "failed to get API keys" (.msg m)), w)
    | (.ok keys, w) =>
      match resolveKeyIDFromPrefix keys a.answer with
      | .error e => (.error (.wrap "failed to resolve key ID" e), w)
      | .ok keyID => askForTokenExpirationWithKeyID w userID StateTokenRegenerate keyID
  | _ =>
    (.error (.msg ("expected exactly one answer for token selection question, got " ++
      toString answers.length)), w)

/-- core revokeKeyByID: provider revocation first, then the repository's. -/
def revokeKeyByID (w : World) (userID keyID : String) : Except Err Unit × World :=
  match provRevokeToken w keyID with
  | (.error m, w) => (.error (.wrap "failed to revoke token" (.msg m)), w)
  | (.ok _, w) =>
    match repoRevokeToken w userID keyID with
    | (.error m, w) => (.error (.wrap "failed to remove API key from repository" (.msg m)), w)
    | (.ok _, w) => (.ok (), w)

/-- core askToSelectTokenForRevocation: start the select-key-to-revoke
leg. -/
def askToSelectTokenForRevocation (w : World) (userID : String) :
    Except Err Response × World :=
  match repoGetAPIKeysWithExpiration w userID with
  | (.error m, w) => (.error (.wrap "failed to get API keys" (.msg m)), w)
  | (.ok keys, w) =>
    let q := buildTokenSelectionQuestion keys "Which token do you want to revoke?"
    match repoGetConversation w userID with
    | (.error m, w) => (.error (.wrap "failed to get conversation" (.msg m)), w)
    | (.ok c, w) =>
      match c.Start StateSelectTokenToRevoke (NewQuestions [q]) with
      | (.error e, _) => (.error (.wrap "failed to start questions" e), w)
      | (.ok _, c) =>
        let current := (c.Current).toOption.getD { text := "", answers := [], field := "" }
        match repoSaveConversation w c with
        | (.error m, w) => (.error (.wrap "failed to save conversation" (.msg m)), w)
        | (.ok _, w) => (.ok { message := current.text, answers := current.answers }, w)

/-- core Service.RevokeToken: 0 keys fails; exactly 1 key is revoked
immediately with a `none` response; otherwise a selection dialog starts. -/
def RevokeToken (w : World) (userID : String) : Except Err (Option Response) × World :=
  match repoGetAPIKeys w userID with
  | (.error m, w) => (.error (.wrap "failed to get API keys" (.msg m)), w)
  | (.ok keys, w) =>
    match keys with
    | [] => (.error ErrTokenNotFound, w)
    | [k] =>
      match revokeKeyByID w userID k with
      | (.error e, w) => (.error e, w)
      | (.ok _, w) => (.ok none, w)
    | _ =>
      match askToSelectTokenForRevocation w userID with
      | (.error e, w) => (.error e, w)
      | (.ok r, w) => (.ok (some r), w)

/-- core handleSelectTokenToRevokeResult: resolve the chosen button and
revoke that key. -/
def handleSelectTokenToRevokeResult (w : World) (userID : String)
    (answers : List QuestionAnswer) : Except Err Response × World :=
  match answers with
  | [a] =>
    match repoGetAPIKeys w userID with
    | (.error m, w) => (.error (.wrap "failed to get API keys" (.msg m)), w)
    | (.ok keys, w) =>
      match resolveKeyIDFromPrefix keys a.answer with
      | .error e => (.error (.wrap "failed to resolve key ID" e), w)
      | .ok keyID =>
        match revokeKeyByID w userID keyID with
        | (.error e, w) => (.error e, w)
        | (.ok _, w) =>
          (.ok { message := "🔒 Your API token has been successfully revoked.\n\nYou can create a new one using /new_token command.",
                 answers := [] }, w)
  | _ =>
    (.error (.msg ("expected exactly one answer for token selection question, got " ++
      toString answers.length)), w)

/-- core maxWebTokensPerUser. -/
def maxWebTokensPerUser : Nat := 3

/-- core maxTCPTokensPerUser. -/
def maxTCPTokensPerUser : Nat := 1

/-- The per-type token quota: 3 web tokens, 1 TCP token per user. -/
def quota : TokenType → Nat
  | .web => maxWebTokensPerUser
  | .tcp => maxTCPTokensPerUser

/-- Modelled from the spec: `encodeTokenField` of the token-type-aware
create_token.go is not under src/ (only its tests reference it).  Spec §4.3:
`encode(type, keyID) = "<type>|<keyID>"`. -/
def encodeTokenField (t : TokenType) (keyID : String) : String :=
  t.str ++ "|" ++ keyID

/-- Modelled from the spec: the matching decode splits on the first `|`; a
string with no separator is treated as `(Web, thatString)` for backward
compatibility. -/
def decodeTokenField (s : String) : TokenType × String :=
  let pre := s.data.takeWhile (fun c => c ≠ '|')
  if pre.length = s.data.length then (.web, s)
  else ((if (⟨pre⟩ : String) = "tcp" then .tcp else .web), ⟨s.data.drop (pre.length + 1)⟩)

/-- Modelled from the spec: the token type a stored type tag stands for
("web"/"tcp", the string values of the TokenType constants). -/
def tokenTypeOfStr (s : String) : Option TokenType :=
  if s = "web" then some .web
  else if s = "tcp" then some .tcp
  else none

/-- Modelled from the spec: the user's token-type selection.  The type
question's buttons are "Web" and "TCP"; any other answer is an unrecognized
type. -/
def parseTokenTypeAnswer (s : String) : Option TokenType :=
  if s = "Web" then some .web
  else if s = "TCP" then some .tcp
  else none

/-- Modelled from the spec: the confirm-regenerate Yes/No question of §4.3,
with the token type stashed in the field. -/
def confirmRegenerateQuestion (t : TokenType) : Question :=
  { text := "You have reached the token limit. Do you want to regenerate an existing one?",
    answers := ["Yes", "No"],
    field := t.str }

/-- Modelled from the spec: start the confirm-regenerate leg (state
tokenExists) for token type `t`. -/
def askToConfirmRegenerate (w : World) (userID : String) (t : TokenType) :
    Except Err Response × World :=
  match repoGetConversation w userID with
  | (.error m, w) => (.error (.wrap "failed to get conversation" (.msg m)), w)
  | (.ok c, w) =>
    match c.Start StateTokenExists (NewQuestions [confirmRegenerateQuestion t]) with
    | (.error e, _) => (.error (.wrap "failed to start questions" e), w)
    | (.ok _, c) =>
      let q := (c.Current).toOption.getD { text := "", answers := [], field := "" }
      match repoSaveConversation w c with
      | (.error m, w) => (.error (.wrap "failed to save conversation" (.msg m)), w)
      | (.ok _, w) => (.ok { message := q.text, answers := q.answers }, w)

/-- Modelled from the spec: the terminal corrective reply for an
unrecognized token type (its wording follows the repository's tests for the
missing handler). -/
def invalidTokenTypeResponse : Response :=
  { message := "Invalid token type selected. Please choose Web or TCP.", answers := [] }

/-- Modelled from the spec: core handleSelectTokenTypeResult is not under
src/ (only its tests and svc.go's dispatch are).  Spec §4.3: exactly one
answer required; an unrecognized type string yields a terminal corrective
Response; otherwise fetch the keys-with-expiry and, when the count of keys
of that type reaches the quota, start the confirm-regenerate leg with the
type stashed in the field, else start the ask-expiration leg with field
encoding `(type, keyID="")`. -/
def handleSelectTokenTypeResult (w : World) (userID : String)
    (answers : List QuestionAnswer) : Except Err Response × World :=
  match answers with
  | [a] =>
    match parseTokenTypeAnswer a.answer with
    | none => (.ok invalidTokenTypeResponse, w)
    | some t =>
      match repoGetAPIKeysWithExpiration w userID with
      | (.error m, w) => (.error (.wrap "failed to get API keys" (.msg m)), w)
      | (.ok keys, w) =>
        if quota t ≤ (keys.filter (fun k => k.type == t)).length then
          askToConfirmRegenerate w userID t
        else
          askForTokenExpirationWithKeyID w userID StateNewToken (encodeTokenField t "")
  | _ =>
    (.error (.msg ("expected exactly one answer for token type question, got " ++
      toString answers.length)), w)

/-- svc.go's dispatch on the state the completed leg ran under. -/
def dispatchResult (w : World) (userID : String) (state : State)
    (res : List QuestionAnswer) : Except Err Response × World :=
  if state = StateSelectTokenType then handleSelectTokenTypeResult w userID res
  else if state = StateTokenExists then handleTokenExistsResult w userID res
  else if state = StateNewToken then handleNewTokenResult w userID res
  else if state = StateTokenRegenerate then handleTokenRegenerateResult w userID res
  else if state = StateSelectTokenToRegenerate then
    handleSelectTokenToRegenerateResult w userID res
  else if state = StateSelectTokenToRevoke then handleSelectTokenToRevokeResult w userID res
  else (.error (.msg ("unsupported conversation state: " ++ state)), w)

/-- core Service.HandleMessage: load the conversation, submit the message,
and either return the next question (persisting the advanced cursor) or
persist the Idle reset and dispatch on the finished leg's state. -/
def HandleMessage (w : World) (userID message : String) : Except Err Response × World :=
  match repoGetConversation w userID with
  | (.error m, w) => (.error (.wrap "failed to get conversation" (.msg m)), w)
  | (.ok cnv, w) =>
    match cnv.Submit message with
    | (.error e, _) => (.error (.wrap "failed to submit message" e), w)
    | (.ok state, cnv) =>
      match cnv.Results with
      | (.error e, cnv) =>
        if e.is ErrIsNotComplete then
          match cnv.Current with
          | .error e2 => (.error (.wrap "failed to get current question" e2), w)
          | .ok q =>
            match repoSaveConversation w cnv with
            | (.error m, w) => (.error (.wrap "failed to save conversation" (.msg m)), w)
            | (.ok _, w) => (.ok { message := q.text, answers := q.answers }, w)
        else (.error (.wrap "failed to get results" e), w)
      | (.ok res, cnv) =>
        match repoSaveConversation w cnv with
        | (.error m, w) => (.error (.wrap "failed to save conversation" (.msg m)), w)
        | (.ok _, w) => dispatchResult w userID state res

/-- repo memberPrefixWeb: the sorted-set member tag for web tokens. -/
def memberPrefixWeb : String := "w:"

/-- repo memberPrefixTCP: the sorted-set member tag for TCP tokens. -/
def memberPrefixTCP : String := "t:"

/-- repo encodeKeyMember: "w:<keyID>" for web, "t:<keyID>" for TCP (the Go
switch sends every non-TCP type to the web arm). -/
def encodeKeyMember (keyID : String) (tokenType : TokenType) : String :=
  match tokenType with
  | .tcp => memberPrefixTCP ++ keyID
  | _ => memberPrefixWeb ++ keyID

/-- repo decodeKeyMember: strip a recognized member tag; a bare member is
treated as a web key for backward compatibility. -/
def decodeKeyMember (member : String) : String × TokenType :=
  if strHasPrefix member memberPrefixWeb then
    (strDrop member memberPrefixWeb.length, .web)
  else if strHasPrefix member memberPrefixTCP then
    (strDrop member memberPrefixTCP.length, .tcp)
  else (member, .web)

/-! ### Helper lemmas -/

/-- `strHasPrefix` agrees with list-prefix on the character data. -/
lemma strHasPrefix_iff (s p : String) : strHasPrefix s p = true ↔ p.data <+: s.data := by
  simp [strHasPrefix, List.isPrefixOf_iff_prefix]

lemma strHasPrefix_append (p s : String) : strHasPrefix (p ++ s) p = true := by
  rw [strHasPrefix_iff, String.data_append]
  exact List.prefix_append ..

lemma strDrop_append (p s : String) : strDrop (p ++ s) p.length = s := by
  simp only [strDrop, String.data_append, String.length]
  rw [List.drop_left]

lemma strTake_of_length_le (s : String) (n : Nat) (h : s.length ≤ n) : strTake s n = s := by
  simp only [strTake]
  rw [List.take_of_length_le h]

lemma strTake_length (s : String) (n : Nat) : (strTake s n).length = min n s.length := by
  change (s.data.take n).length = min n s.data.length
  exact List.length_take ..

/-- The matching condition of `resolveKeyIDFromPrefix`, rephrased: the
first keyIDDisplayLen characters of the button text equal the first
keyIDDisplayLen characters of the key (for a key shorter than that, its
"first 8 characters" are the whole key, which is what the code
compares). -/
lemma resolve_cond_iff (k bt : String) :
    (keyIDDisplayLen ≤ bt.length ∧ strTake bt keyIDDisplayLen =
      (if keyIDDisplayLen < k.length then strTake k keyIDDisplayLen else k)) ↔
    (keyIDDisplayLen ≤ bt.length ∧
      strTake bt keyIDDisplayLen = strTake k keyIDDisplayLen) := by
  by_cases hk : keyIDDisplayLen < k.length
  · rw [if_pos hk]
  · rw [if_neg hk, strTake_of_length_le k _ (Nat.le_of_not_lt hk)]

/-- `resolveKeyIDFromPrefix` is the first listing entry satisfying the
prefix-match condition. -/
lemma resolve_eq_find (keys : List String) (bt : String) :
    resolveKeyIDFromPrefix keys bt =
      match keys.find? (fun k => decide (keyIDDisplayLen ≤ bt.length) &&
          (strTake bt keyIDDisplayLen == strTake k keyIDDisplayLen)) with
      | some k => .ok k
      | none => .error ErrKeyNotFound := by
  induction keys with
  | nil => rfl
  | cons k keys ih =>
    rw [resolveKeyIDFromPrefix, List.find?]
    by_cases hc : keyIDDisplayLen ≤ bt.length ∧ strTake bt keyIDDisplayLen =
        (if keyIDDisplayLen < k.length then strTake k keyIDDisplayLen else k)
    · rw [if_pos hc]
      have : (decide (keyIDDisplayLen ≤ bt.length) &&
          (strTake bt keyIDDisplayLen == strTake k keyIDDisplayLen)) = true := by
        rw [resolve_cond_iff] at hc
        simp [hc.1, hc.2]
      rw [this]
    · rw [if_neg hc]
      have : (decide (keyIDDisplayLen ≤ bt.length) &&
          (strTake bt keyIDDisplayLen == strTake k keyIDDisplayLen)) = false := by
        rw [resolve_cond_iff] at hc
        rcases Decidable.not_and_iff_or_not.mp hc with h | h <;> simp [h]
      rw [this, ih]

/-! ### Claim theorems -/

/-- C10: decoding an encoded key member is the identity — for both token
types and any non-empty id, `decodeKeyMember (encodeKeyMember id t) =
(id, t)`; and a member carrying neither type tag decodes as that string
with type web. -/
theorem decodeKeyMember_encodeKeyMember :
    (∀ (t : TokenType) (id : String), id ≠ "" →
      decodeKeyMember (encodeKeyMember id t) = (id, t)) ∧
    (∀ s : String, strHasPrefix s memberPrefixWeb = false →
      strHasPrefix s memberPrefixTCP = false → decodeKeyMember s = (s, TokenType.web)) := by
  constructor
  · intro t id _
    cases t with
    | web =>
      have h1 : strHasPrefix (encodeKeyMember id .web) memberPrefixWeb = true :=
        strHasPrefix_append ..
      have h2 : strDrop (encodeKeyMember id .web) memberPrefixWeb.length = id :=
        strDrop_append ..
      simp [decodeKeyMember, h1, h2]
    | tcp =>
      have h1 : strHasPrefix (encodeKeyMember id .tcp) memberPrefixWeb = false := by
        rw [Bool.eq_false_iff]
        intro h
        rw [strHasPrefix_iff] at h
        rw [show encodeKeyMember id .tcp = memberPrefixTCP ++ id from rfl,
          String.data_append] at h
        rw [show memberPrefixWeb.data = ['w', ':'] from rfl] at h
        rw [show (memberPrefixTCP.data ++ id.data) = 't' :: (':' :: id.data) from rfl] at h
        rw [List.cons_prefix_cons] at h
        exact absurd h.1 (by decide)
      have h2 : strHasPrefix (encodeKeyMember id .tcp) memberPrefixTCP = true :=
        strHasPrefix_append ..
      have h3 : strDrop (encodeKeyMember id .tcp) memberPrefixTCP.length = id :=
        strDrop_append ..
      simp [decodeKeyMember, h1, h2, h3]
  · intro s h1 h2
    simp [decodeKeyMember, h1, h2]

/-- C10 witness: the round trip at a concrete TCP key. -/
theorem decodeKeyMember_encodeKeyMember_witness :
    decodeKeyMember (encodeKeyMember "abc123" .tcp) = ("abc123", TokenType.tcp) :=
  decodeKeyMember_encodeKeyMember.1 .tcp "abc123" (by decide)

/-- C8: an answer outside the current question's choice set (exact,
case-sensitive equality) fails with InvalidAnswer and returns the
questionnaire unchanged — same cursor, same recorded answers. -/
theorem processAnswer_invalidAnswer (f : Questions) (ans : String)
    (h : f.position < f.qaPairs.length)
    (hna : (f.qaPairs.get ⟨f.position, h⟩).question.answers.contains ans = false) :
    f.ProcessAnswer ans = (.error ErrInvalidAnswer, f) := by
  have hna' : ans ∉ f.qaPairs[f.position].question.answers := by simpa using hna
  simp [Questions.ProcessAnswer, h, hna']

/-- C8 witness: a mismatched answer at a concrete questionnaire. -/
theorem processAnswer_invalidAnswer_witness :
    (NewQuestions [{ text := "q", answers := ["Yes", "No"], field := "" }]).ProcessAnswer
        "Maybe" =
      (.error ErrInvalidAnswer,
        NewQuestions [{ text := "q", answers := ["Yes", "No"], field := "" }]) :=
  processAnswer_invalidAnswer _ "Maybe" (by decide) (by decide)

/-- C5: key-prefix resolution returns the first key of the backing listing
whose first 8 characters equal the first 8 characters of the button text,
and fails with KeyNotFound when no key matches; when two keys share the
same first 8 characters the earlier listing entry wins. -/
theorem resolveKeyIDFromPrefix_spec :
    (∀ (keys : List String) (bt : String),
      resolveKeyIDFromPrefix keys bt =
        match keys.find? (fun k => decide (keyIDDisplayLen ≤ bt.length) &&
            (strTake bt keyIDDisplayLen == strTake k keyIDDisplayLen)) with
        | some k => .ok k
        | none => .error ErrKeyNotFound) ∧
    (∀ (k : String) (keys : List String) (bt : String),
      keyIDDisplayLen ≤ bt.length →
      strTake bt keyIDDisplayLen = strTake k keyIDDisplayLen →
      resolveKeyIDFromPrefix (k :: keys) bt = .ok k) := by
  refine ⟨resolve_eq_find, fun k keys bt h1 h2 => ?_⟩
  rw [resolveKeyIDFromPrefix, if_pos ((resolve_cond_iff k bt).mpr ⟨h1, h2⟩)]

/-- C5 witness: two keys sharing the displayed 8-character prefix — the
earlier one is returned. -/
theorem resolveKeyIDFromPrefix_spec_witness :
    resolveKeyIDFromPrefix ["abcdef12aaa", "abcdef12bbb"] "abcdef12 (exp: 2026-01-01)" =
      .ok "abcdef12aaa" :=
  resolveKeyIDFromPrefix_spec.2 "abcdef12aaa" ["abcdef12bbb"] "abcdef12 (exp: 2026-01-01)"
    (by decide) (by decide)

/-- C6: every key of the listing gets a selection button (short IDs
included), but prefix resolution can only ever return a key of length at
least 8: the match requires the button text's 8-character prefix to equal
the key's own prefix, which for a shorter key is the whole (shorter)
key. -/
theorem short_key_never_resolved :
    (∀ (keys : List KeyInfo) (text : String),
      (buildTokenSelectionQuestion keys text).answers.length = keys.length) ∧
    (∀ (keys : List String) (bt k : String),
      resolveKeyIDFromPrefix keys bt = .ok k → keyIDDisplayLen ≤ k.length) := by
  constructor
  · intro keys text
    simp [buildTokenSelectionQuestion]
  · intro keys bt k
    induction keys with
    | nil => intro h; exact absurd h (by simp [resolveKeyIDFromPrefix])
    | cons k' keys ih =>
      intro h
      rw [resolveKeyIDFromPrefix] at h
      by_cases hc : keyIDDisplayLen ≤ bt.length ∧ strTake bt keyIDDisplayLen =
          (if keyIDDisplayLen < k'.length then strTake k' keyIDDisplayLen else k')
      · rw [if_pos hc] at h
        cases h
        rcases (resolve_cond_iff k bt).mp hc with ⟨h1, h2⟩
        have hlen : (strTake bt keyIDDisplayLen).length = keyIDDisplayLen := by
          rw [strTake_length, Nat.min_eq_left h1]
        rw [h2, strTake_length] at hlen
        omega
      · rw [if_neg hc] at h
        exact ih h

/-- C6 witness: a 5-character key gets a button but selecting it fails with
KeyNotFound. -/
theorem short_key_never_resolved_witness :
    (buildTokenSelectionQuestion [⟨"short", "2026-01-01", .web⟩] "Pick").answers =
      ["short (exp: 2026-01-01)"] ∧
    resolveKeyIDFromPrefix ["short"] "short (exp: 2026-01-01)" = .error ErrKeyNotFound := by
  have := short_key_never_resolved.1 [(⟨"short", "2026-01-01", .web⟩ : KeyInfo)] "Pick"
  exact ⟨by decide, by rfl⟩

/-- Case analysis for ProcessAnswer: either it fails and returns the
questionnaire unchanged, or the cursor was on a question whose choice set
contains the answer, and the answer is recorded with the cursor
advanced. -/
lemma processAnswer_cases (f : Questions) (ans : String) :
    (∃ e, f.ProcessAnswer ans = (.error e, f)) ∨
    ∃ hp : f.position < f.qaPairs.length,
      (f.qaPairs.get ⟨f.position, hp⟩).question.answers.contains ans = true ∧
      f.ProcessAnswer ans =
        (.ok (decide (f.qaPairs.length ≤ f.position + 1)),
         { qaPairs := f.qaPairs.set f.position
             { f.qaPairs.get ⟨f.position, hp⟩ with answer := ans },
           position := f.position + 1 }) := by
  unfold Questions.ProcessAnswer
  by_cases hp : f.position < f.qaPairs.length
  · by_cases hc : (f.qaPairs.get ⟨f.position, hp⟩).question.answers.contains ans = true
    · refine Or.inr ⟨hp, hc, ?_⟩
      simp only [dif_pos hp, if_pos hc, Prod.mk.injEq, Except.ok.injEq]
      constructor
      · congr 1
        simp [List.length_set]
      · exact trivial
    · refine Or.inl ⟨ErrInvalidAnswer, ?_⟩
      simp only [dif_pos hp]
      rw [if_neg (by simpa using hc)]
  · exact Or.inl ⟨ErrNoMoreQuestions, by simp only [dif_neg hp]⟩

/-- C7: Submit is legal only in an in-flight state (otherwise it errors and
changes nothing); a successful Submit returns the pre-transition state the
leg was running under, and the conversation moves to Complete exactly when
the answered question was the last one. -/
theorem submit_spec :
    (∀ (c : Conversation) (ans : String),
      (c.state = StateIdle ∨ c.state = StateComplete) →
      c.Submit ans =
        (.error (.msg ("conversation is not in questions state, current state: " ++ c.state)),
         c)) ∧
    (∀ (c : Conversation) (ans : String) (st : State) (c' : Conversation),
      c.Submit ans = (.ok st, c') →
      st = c.state ∧ ¬(c.state = StateIdle ∨ c.state = StateComplete) ∧
      c'.questions.position = c.questions.position + 1 ∧
      (c'.state = StateComplete ↔ c.questions.position + 1 = c.questions.qaPairs.length)) := by
  constructor
  · intro c ans hs
    rw [Conversation.Submit, if_pos hs]
  · intro c ans st c' h
    by_cases hs : c.state = StateIdle ∨ c.state = StateComplete
    · rw [Conversation.Submit, if_pos hs] at h
      simp at h
    · rw [Conversation.Submit, if_neg hs] at h
      rcases processAnswer_cases c.questions ans with ⟨e, he⟩ | ⟨hp, _, hok⟩
      · rw [he] at h
        simp at h
      · rw [hok] at h
        simp only [Prod.mk.injEq, Except.ok.injEq] at h
        obtain ⟨hst, hc'⟩ := h
        subst hst
        subst hc'
        refine ⟨rfl, hs, rfl, ?_⟩
        by_cases hdone : c.questions.qaPairs.length ≤ c.questions.position + 1
        · rw [if_pos (by simpa using hdone)]
          exact ⟨fun _ => by omega, fun _ => rfl⟩
        · rw [if_neg (by simpa using hdone)]
          refine ⟨fun habs => absurd (Or.inr habs) hs, fun habs => by omega⟩

/-- C7 witness: a successful Submit at a concrete in-flight
conversation. -/
theorem submit_spec_witness :
    StateNewToken =
      (⟨"u", StateNewToken, NewQuestions [expirationQuestion ""]⟩ : Conversation).state ∧
    ¬((⟨"u", StateNewToken, NewQuestions [expirationQuestion ""]⟩ : Conversation).state =
        StateIdle ∨
      (⟨"u", StateNewToken, NewQuestions [expirationQuestion ""]⟩ : Conversation).state =
        StateComplete) ∧
    (⟨"u", StateComplete, ⟨[⟨"7 days", "", expirationQuestion ""⟩], 1⟩⟩ :
        Conversation).questions.position =
      (⟨"u", StateNewToken, NewQuestions [expirationQuestion ""]⟩ :
        Conversation).questions.position + 1 ∧
    ((⟨"u", StateComplete, ⟨[⟨"7 days", "", expirationQuestion ""⟩], 1⟩⟩ :
        Conversation).state = StateComplete ↔
      (⟨"u", StateNewToken, NewQuestions [expirationQuestion ""]⟩ :
          Conversation).questions.position + 1 =
        (⟨"u", StateNewToken, NewQuestions [expirationQuestion ""]⟩ :
          Conversation).questions.qaPairs.length) :=
  submit_spec.2 ⟨"u", StateNewToken, NewQuestions [expirationQuestion ""]⟩ "7 days"
    StateNewToken ⟨"u", StateComplete, ⟨[⟨"7 days", "", expirationQuestion ""⟩], 1⟩⟩ (by rfl)

/-- The spec's §3 questionnaire invariant: the cursor stays within bounds
and every answered slot (index below the cursor) holds a non-empty
answer. -/
def Questions.Inv (f : Questions) : Prop :=
  f.position ≤ f.qaPairs.length ∧
  ∀ i (h : i < f.qaPairs.length), i < f.position → (f.qaPairs.get ⟨i, h⟩).answer ≠ ""

/-- C9 (amended): for questionnaires whose choice sets do not contain the
empty string, NewQuestions establishes the invariant, ProcessAnswer
preserves it (and preserves the choice-set condition), GetResults succeeds
iff the cursor equals the length, and ProcessAnswer reports done iff the
resulting cursor equals the length. -/
theorem questionnaire_invariant :
    (∀ qs : List Question, (NewQuestions qs).Inv) ∧
    (∀ (f : Questions) (ans : String), f.Inv →
      (∀ qa ∈ f.qaPairs, "" ∉ qa.question.answers) →
      ((f.ProcessAnswer ans).2.Inv ∧
        ∀ qa ∈ (f.ProcessAnswer ans).2.qaPairs, "" ∉ qa.question.answers)) ∧
    (∀ f : Questions, f.Inv →
      ((∃ r, f.GetResults = .ok r) ↔ f.position = f.qaPairs.length)) ∧
    (∀ (f f' : Questions) (ans : String) (done : Bool),
      f.ProcessAnswer ans = (.ok done, f') →
      (done = true ↔ f'.position = f'.qaPairs.length)) := by
  refine ⟨?_, ?_, ?_, ?_⟩
  · intro qs
    exact ⟨Nat.zero_le _, fun i h hlt => absurd hlt (by simp [NewQuestions])⟩
  · intro f ans hinv hne
    rcases processAnswer_cases f ans with ⟨e, he⟩ | ⟨hp, hc, hok⟩
    · rw [he]
      exact ⟨hinv, hne⟩
    · rw [hok]
      have hmem : f.qaPairs.get ⟨f.position, hp⟩ ∈ f.qaPairs := List.get_mem ..
      have hans : ans ≠ "" := by
        intro habs
        subst habs
        exact hne _ hmem (by simpa using hc)
      refine ⟨⟨?_, ?_⟩, ?_⟩
      · simpa [List.length_set] using hp
      · intro i h hlt
        have h' : i < f.qaPairs.length := by simpa [List.length_set] using h
        have hlt' : i < f.position + 1 := by simpa using hlt
        show ((f.qaPairs.set f.position
          { f.qaPairs.get ⟨f.position, hp⟩ with answer := ans }).get ⟨i, h⟩).answer ≠ ""
        simp only [List.get_eq_getElem, List.getElem_set]
        by_cases hij : f.position = i
        · rw [if_pos hij]
          exact hans
        · rw [if_neg hij]
          exact hinv.2 i h' (by omega)
      · intro qa hqa
        have hqa' : qa ∈ f.qaPairs.set f.position
            { f.qaPairs.get ⟨f.position, hp⟩ with answer := ans } := hqa
        rcases List.mem_or_eq_of_mem_set hqa' with hold | hnew
        · exact hne qa hold
        · subst hnew
          simpa using hne _ hmem
  · intro f hinv
    rw [Questions.GetResults]
    by_cases hp : f.position < f.qaPairs.length
    · rw [if_pos hp]
      constructor
      · rintro ⟨r, hr⟩
        simp at hr
      · intro h
        exact absurd h (by omega)
    · rw [if_neg hp]
      exact ⟨fun _ => Nat.le_antisymm hinv.1 (Nat.le_of_not_lt hp),
        fun _ => ⟨f.qaPairs, rfl⟩⟩
  · intro f f' ans done h
    rcases processAnswer_cases f ans with ⟨e, he⟩ | ⟨hp, hc, hok⟩
    · rw [he] at h
      simp at h
    · rw [hok] at h
      simp only [Prod.mk.injEq, Except.ok.injEq] at h
      obtain ⟨hdone, hf'⟩ := h
      subst hdone
      subst hf'
      show decide (f.qaPairs.length ≤ f.position + 1) = true ↔
        f.position + 1 = (f.qaPairs.set f.position
          { f.qaPairs.get ⟨f.position, hp⟩ with answer := ans }).length
      simp only [List.length_set, decide_eq_true_eq]
      omega

/-- C9 counterexample: a question whose choice set contains the empty
string — answering it with "" advances the cursor past an empty recorded
answer, violating the invariant as universally stated. -/
theorem questionnaire_invariant_cex :
    ¬ ((NewQuestions [{ text := "q", answers := [""], field := "" }]).ProcessAnswer
        "").2.Inv := by
  intro hinv
  exact hinv.2 0 (by decide) (by decide) rfl

/-- C9 witness: invariant preservation at a concrete questionnaire. -/
theorem questionnaire_invariant_witness :
    ((NewQuestions [{ text := "q", answers := ["Yes", "No"], field := "" }]).ProcessAnswer
        "Yes").2.Inv ∧
    ∀ qa ∈ ((NewQuestions [{ text := "q", answers := ["Yes", "No"], field := "" }]).ProcessAnswer
        "Yes").2.qaPairs, "" ∉ qa.question.answers :=
  questionnaire_invariant.2.1 _ "Yes" (questionnaire_invariant.1 _) (by decide)

/-- C2: in the regenerate completion handler the collaborator calls happen
in the fixed order provider.RevokeToken, repository.RevokeToken,
provider.GenerateToken, repository.AddAPIKey; and a provider.RevokeToken
failure stops the flow with the error returned wrapped, before any other
collaborator call. -/
theorem regenerate_call_order :
    ∀ (w : World) (uid : String) (a : QuestionAnswer) (rest : List QuestionAnswer) (ttl : Int),
      parseExpirationAnswer (a :: rest) = .ok ttl →
      a.field ≠ "" →
      ((∀ m, w.provRevokeErr a.field = some m →
          handleTokenRegenerateResult w uid (a :: rest) =
            (.error (.wrap "failed to revoke existing token" (.msg m)),
             { w with trace := w.trace ++ [.provRevoke a.field] })) ∧
       (∀ tok, w.provRevokeErr a.field = none → w.repoRevokeErr a.field = none →
          w.provGen a.field ttl = .ok tok → w.addKeyErr tok.keyID = none →
          (handleTokenRegenerateResult w uid (a :: rest)).2.trace =
            w.trace ++ [.provRevoke a.field, .repoRevoke uid a.field,
              .provGenerate a.field ttl, .repoAddKey uid tok.keyID tok.expiresIn])) := by
  intro w uid a rest ttl hparse hfield
  constructor
  · intro m hm
    simp only [handleTokenRegenerateResult, hparse, if_neg hfield, provRevokeToken,
      World.log, hm]
  · intro tok h1 h2 h3 h4
    simp only [handleTokenRegenerateResult, hparse, if_neg hfield, provRevokeToken,
      repoRevokeToken, provGenerateToken, repoAddAPIKey, World.log, h1, h2, h3, h4]
    simp [List.append_assoc]

/-- A concrete world whose provider rejects every revocation. -/
def wRegen : World where
  store := none
  apiKeys := []
  apiKeysExp := []
  getConvErr := none
  saveConvErr := none
  getKeysErr := none
  getKeysExpErr := none
  provRevokeErr := fun _ => some "boom"
  provGen := fun _ ttl => .ok ⟨"k2", "tok2", ttl⟩
  repoRevokeErr := fun _ => none
  addKeyErr := fun _ => none
  now := 0
  trace := []

/-- A concrete expiration answer carrying key "key1" in the field. -/
def aRegen : QuestionAnswer := ⟨"7 days", "key1", ⟨"exp?", [], ""⟩⟩

/-- C2 witness: with the provider revocation failing, the handler stops
after the one provider call and returns the wrapped error. -/
theorem regenerate_call_order_witness :
    handleTokenRegenerateResult wRegen "u" [aRegen] =
      (.error (.wrap "failed to revoke existing token" (.msg "boom")),
       { wRegen with trace := wRegen.trace ++ [.provRevoke aRegen.field] }) :=
  (regenerate_call_order wRegen "u" aRegen [] (7 * secondsInDay) (by rfl)
    (by decide)).1 "boom" (by rfl)

/-- C4: RevokeToken by key count — zero keys fails with TokenNotFound and
touches nothing else; exactly one key is revoked immediately (provider then
repository) with a nil Response; two or more keys perform no revocation and
start the select-key-to-revoke leg with one button per listed key. -/
theorem revokeToken_by_count :
    ∀ (w : World) (uid : String),
      w.getKeysErr = none →
      ((w.apiKeys = [] →
          RevokeToken w uid = (.error ErrTokenNotFound, w.log (.getKeys uid))) ∧
       (∀ k, w.apiKeys = [k] → w.provRevokeErr k = none → w.repoRevokeErr k = none →
          RevokeToken w uid =
            (.ok none,
             { w with trace := w.trace ++ [.getKeys uid, .provRevoke k, .repoRevoke uid k] })) ∧
       (2 ≤ w.apiKeys.length → w.getKeysExpErr = none → w.getConvErr = none →
          w.saveConvErr = none → (w.store.getD (Conversation.New uid)).state = StateIdle →
          ∃ cc, RevokeToken w uid =
              (.ok (some { message := "Which token do you want to revoke?",
                           answers := (buildTokenSelectionQuestion w.apiKeysExp
                             "Which token do you want to revoke?").answers }),
               { w with store := some cc,
                        trace := w.trace ++
                          [.getKeys uid, .getKeysExp uid, .getConv uid, .saveConv cc] }) ∧
            cc.state = StateSelectTokenToRevoke ∧
            (buildTokenSelectionQuestion w.apiKeysExp
              "Which token do you want to revoke?").answers.length = w.apiKeysExp.length)) := by
  intro w uid hkeys
  refine ⟨?_, ?_, ?_⟩
  · intro h0
    simp only [RevokeToken, repoGetAPIKeys, World.log, hkeys, h0]
  · intro k h1 hpr hrr
    simp only [RevokeToken, repoGetAPIKeys, World.log, hkeys, h1, revokeKeyByID,
      provRevokeToken, repoRevokeToken, hpr, hrr]
    simp [List.append_assoc]
  · intro h2 hexp hconv hsave hidle
    rcases hk : w.apiKeys with _ | ⟨k1, _ | ⟨k2, rest⟩⟩
    · rw [hk] at h2; simp at h2
    · rw [hk] at h2; simp at h2
    · refine ⟨{ w.store.getD (Conversation.New uid) with
                  state := StateSelectTokenToRevoke,
                  questions := NewQuestions [buildTokenSelectionQuestion w.apiKeysExp
                    "Which token do you want to revoke?"] }, ?_, rfl, by
            simp [buildTokenSelectionQuestion]⟩
      simp only [RevokeToken, repoGetAPIKeys, World.log, hkeys, hk,
        askToSelectTokenForRevocation, repoGetAPIKeysWithExpiration, hexp,
        repoGetConversation, hconv, Conversation.Start, hidle, StateIdle,
        StateComplete, StateSelectTokenToRevoke, repoSaveConversation, hsave]
      simp [Conversation.Current, Questions.GetQuestion, NewQuestions,
        buildTokenSelectionQuestion, StateSelectTokenToRevoke, StateIdle, StateComplete,
        Except.toOption, Option.getD]

/-- A concrete world holding exactly one key. -/
def wOneKey : World where
  store := none
  apiKeys := ["key1"]
  apiKeysExp := [⟨"key1", "2026-01-01", .web⟩]
  getConvErr := none
  saveConvErr := none
  getKeysErr := none
  getKeysExpErr := none
  provRevokeErr := fun _ => none
  provGen := fun _ ttl => .ok ⟨"k2", "tok2", ttl⟩
  repoRevokeErr := fun _ => none
  addKeyErr := fun _ => none
  now := 0
  trace := []

/-- C4 witness: the single stored key is revoked immediately, provider
first, with a nil Response. -/
theorem revokeToken_by_count_witness :
    RevokeToken wOneKey "u" =
      (.ok none,
       { wOneKey with
           trace := wOneKey.trace ++
             [.getKeys "u", .provRevoke "key1", .repoRevoke "u" "key1"] }) :=
  ((revokeToken_by_count wOneKey "u" (by rfl)).2.1) "key1" (by rfl) (by rfl) (by rfl)

/-- C3: handleSelectTokenTypeResult routes on the quota — with at least
quota-many existing keys of the selected type it starts the
confirm-regenerate leg with the type recoverable from the question's field,
and below the quota it starts the ask-expiration leg with an empty keyID
encoded in the field. -/
theorem selectTokenType_routes :
    ∀ (w : World) (uid : String) (a : QuestionAnswer) (t : TokenType),
      parseTokenTypeAnswer a.answer = some t →
      w.getKeysExpErr = none → w.getConvErr = none → w.saveConvErr = none →
      (w.store.getD (Conversation.New uid)).state = StateIdle →
      ((quota t ≤ (w.apiKeysExp.filter (fun k => k.type == t)).length →
         ∃ cc, (handleSelectTokenTypeResult w uid [a]).2.store = some cc ∧
           cc.state = StateTokenExists ∧
           ∃ q, cc.Current = .ok q ∧ tokenTypeOfStr q.field = some t) ∧
       ((w.apiKeysExp.filter (fun k => k.type == t)).length < quota t →
         ∃ cc, (handleSelectTokenTypeResult w uid [a]).2.store = some cc ∧
           cc.state = StateNewToken ∧
           ∃ q, cc.Current = .ok q ∧ decodeTokenField q.field = (t, ""))) := by
  intro w uid a t hparse hexp hconv hsave hidle
  constructor
  · intro hq
    refine ⟨{ w.store.getD (Conversation.New uid) with
                state := StateTokenExists,
                questions := NewQuestions [confirmRegenerateQuestion t] }, ?_, rfl, ?_⟩
    · simp only [handleSelectTokenTypeResult, hparse, repoGetAPIKeysWithExpiration,
        World.log, hexp, if_pos hq, askToConfirmRegenerate, repoGetConversation, hconv,
        Conversation.Start, hidle, StateIdle, StateComplete, StateTokenExists,
        repoSaveConversation, hsave]
      simp
    · refine ⟨confirmRegenerateQuestion t, ?_, ?_⟩
      · simp [Conversation.Current, Questions.GetQuestion, NewQuestions,
          StateTokenExists, StateIdle, StateComplete]
      · cases t <;> rfl
  · intro hq
    have hq' : ¬(quota t ≤ (w.apiKeysExp.filter (fun k => k.type == t)).length) :=
      Nat.not_le_of_lt hq
    refine ⟨{ w.store.getD (Conversation.New uid) with
                state := StateNewToken,
                questions := NewQuestions [expirationQuestion (encodeTokenField t "")] },
      ?_, rfl, ?_⟩
    · simp only [handleSelectTokenTypeResult, hparse, repoGetAPIKeysWithExpiration,
        World.log, hexp, if_neg hq', askForTokenExpirationWithKeyID, repoGetConversation,
        hconv, Conversation.Start, hidle, StateIdle, StateComplete, StateNewToken,
        repoSaveConversation, hsave]
      simp
    · refine ⟨expirationQuestion (encodeTokenField t ""), ?_, ?_⟩
      · simp [Conversation.Current, Questions.GetQuestion, NewQuestions,
          StateNewToken, StateIdle, StateComplete]
      · cases t <;> rfl

/-- A concrete world already holding three web keys. -/
def wTypes : World where
  store := none
  apiKeys := ["key1", "key2", "key3"]
  apiKeysExp := [⟨"key1", "2026-01-01", .web⟩, ⟨"key2", "2026-01-02", .web⟩,
    ⟨"key3", "2026-01-03", .web⟩]
  getConvErr := none
  saveConvErr := none
  getKeysErr := none
  getKeysExpErr := none
  provRevokeErr := fun _ => none
  provGen := fun _ ttl => .ok ⟨"k9", "tok9", ttl⟩
  repoRevokeErr := fun _ => none
  addKeyErr := fun _ => none
  now := 0
  trace := []

/-- C3 witness: selecting "Web" with three web keys stored starts the
confirm-regenerate leg with the web type in the field. -/
theorem selectTokenType_routes_witness :
    ∃ cc, (handleSelectTokenTypeResult wTypes "u"
        [⟨"Web", "", ⟨"type?", ["Web", "TCP"], ""⟩⟩]).2.store = some cc ∧
      cc.state = StateTokenExists ∧
      ∃ q, cc.Current = .ok q ∧ tokenTypeOfStr q.field = some TokenType.web :=
  ((selectTokenType_routes wTypes "u" ⟨"Web", "", ⟨"type?", ["Web", "TCP"], ""⟩⟩ .web
    (by rfl) (by rfl) (by rfl) (by rfl) (by rfl)).1) (by decide)

/-- C1 (amended): an answer outside the current question's choice set is
answered with an error (nothing saved, so the persisted conversation keeps
the leg); the invalid-expiration and invalid-token-type corrective branches
reply without touching any collaborator; but whenever a leg completes,
HandleMessage saves the Idle-reset conversation before dispatching to the
handler, so a corrective Response from a completion handler finds the leg
already consumed. -/
theorem corrective_leaves_conversation :
    (∀ (w : World) (uid msg : String) (c : Conversation) (q : Question),
      w.getConvErr = none → w.store = some c →
      ¬(c.state = StateIdle ∨ c.state = StateComplete) →
      c.questions.GetQuestion = .ok q → q.answers.contains msg = false →
      (∃ e, HandleMessage w uid msg = (.error e, w.log (.getConv uid))) ∧
      (HandleMessage w uid msg).2.store = w.store) ∧
    (∀ (w : World) (uid : String) (answers : List QuestionAnswer),
      parseExpirationAnswer answers = .error ErrInvalidExpirationPeriod →
      handleNewTokenResult w uid answers = (.ok invalidExpirationResponse, w) ∧
      handleTokenRegenerateResult w uid answers = (.ok invalidExpirationResponse, w)) ∧
    (∀ (w : World) (uid : String) (a : QuestionAnswer),
      parseTokenTypeAnswer a.answer = none →
      handleSelectTokenTypeResult w uid [a] = (.ok invalidTokenTypeResponse, w)) ∧
    (∀ (w : World) (uid msg : String) (c : Conversation) (st : State)
        (c' c'' : Conversation) (res : List QuestionAnswer),
      w.getConvErr = none → w.saveConvErr = none → w.store = some c →
      c.Submit msg = (.ok st, c') → c'.Results = (.ok res, c'') →
      c''.state = StateIdle ∧
      HandleMessage w uid msg =
        dispatchResult
          { w with store := some c'',
                   trace := w.trace ++ [.getConv uid, .saveConv c''] } uid st res) := by
  refine ⟨?_, ?_, ?_, ?_⟩
  · intro w uid msg c q hgc hstore hs hq hcontains
    have hget : ∃ hp : c.questions.position < c.questions.qaPairs.length,
        (c.questions.qaPairs.get ⟨c.questions.position, hp⟩).question = q := by
      unfold Questions.GetQuestion at hq
      by_cases hp : c.questions.position < c.questions.qaPairs.length
      · rw [dif_pos hp] at hq
        exact ⟨hp, by injection hq⟩
      · rw [dif_neg hp] at hq
        simp at hq
    obtain ⟨hp, hqe⟩ := hget
    have hpa : c.questions.ProcessAnswer msg = (.error ErrInvalidAnswer, c.questions) := by
      unfold Questions.ProcessAnswer
      rw [dif_pos hp]
      have hqe' : c.questions.qaPairs[c.questions.position].question = q := hqe
      simp only [List.get_eq_getElem, hqe']
      rw [if_neg (by simpa using hcontains)]
    have hsub : c.Submit msg = (.error ErrInvalidAnswer, { c with questions := c.questions }) := by
      rw [Conversation.Submit, if_neg hs, hpa]
    constructor
    · refine ⟨.wrap "failed to submit message" ErrInvalidAnswer, ?_⟩
      simp only [HandleMessage, repoGetConversation, World.log, hgc, hstore,
        Option.getD_some, hsub]
    · simp only [HandleMessage, repoGetConversation, World.log, hgc, hstore,
        Option.getD_some, hsub]
  · intro w uid answers hparse
    constructor
    · simp only [handleNewTokenResult, hparse]
      rw [if_pos (by decide)]
    · simp only [handleTokenRegenerateResult, hparse]
      rw [if_pos (by decide)]
  · intro w uid a hparse
    simp only [handleSelectTokenTypeResult, hparse]
  · intro w uid msg c st c' c'' res hgc hsave hstore hsub hres
    have hcs : c'.state = StateComplete := by
      by_contra hcs
      rw [Conversation.Results, if_pos hcs] at hres
      simp at hres
    have hget : c'.questions.GetResults = .ok res ∧ c'' = { c' with state := StateIdle } := by
      rw [Conversation.Results, if_neg (by simpa using hcs)] at hres
      rcases hgr : c'.questions.GetResults with e | r
      · rw [hgr] at hres
        simp at hres
      · rw [hgr] at hres
        simp only [Prod.mk.injEq, Except.ok.injEq] at hres
        exact ⟨by rw [hres.1], hres.2.symm⟩
    refine ⟨by rw [hget.2], ?_⟩
    simp only [HandleMessage, repoGetConversation, World.log, hgc, hstore,
      Option.getD_some, hsub, hres, repoSaveConversation, hsave]
    simp [List.append_assoc]

/-- A concrete world whose stored conversation is an in-flight ask-expiration
leg offering the unparsable choice "2 days" (as a foreign/legacy stored
questionnaire can). -/
def wC1 : World where
  store := some ⟨"u", StateNewToken,
    NewQuestions [{ text := "exp?", answers := ["2 days"], field := "" }]⟩
  apiKeys := []
  apiKeysExp := []
  getConvErr := none
  saveConvErr := none
  getKeysErr := none
  getKeysExpErr := none
  provRevokeErr := fun _ => none
  provGen := fun _ ttl => .ok ⟨"k1", "tok1", ttl⟩
  repoRevokeErr := fun _ => none
  addKeyErr := fun _ => none
  now := 0
  trace := []

/-- C1 counterexample: HandleMessage answers the invalid expiration period
"2 days" with the corrective Response, yet the persisted conversation has
changed (the leg was reset to Idle and saved), and the same leg cannot be
answered again — the next identical message is rejected as not in a
questions state. -/
theorem corrective_leaves_conversation_cex :
    (HandleMessage wC1 "u" "2 days").1 = .ok invalidExpirationResponse ∧
    (HandleMessage wC1 "u" "2 days").2.store ≠ wC1.store ∧
    (HandleMessage (HandleMessage wC1 "u" "2 days").2 "u" "2 days").1 =
      .error (.wrap "failed to submit message"
        (.msg "conversation is not in questions state, current state: idle")) :=
  ⟨rfl, by decide, rfl⟩

/-- C1 witness: the corrective branches of both expiration handlers at a
concrete world and answer list. -/
theorem corrective_leaves_conversation_witness :
    handleNewTokenResult wC1 "u" [⟨"2 days", "", ⟨"exp?", ["2 days"], ""⟩⟩] =
      (.ok invalidExpirationResponse, wC1) ∧
    handleTokenRegenerateResult wC1 "u" [⟨"2 days", "", ⟨"exp?", ["2 days"], ""⟩⟩] =
      (.ok invalidExpirationResponse, wC1) :=
  corrective_leaves_conversation.2.1 wC1 "u" _ (by rfl)

end MIT
